import Mathlib

/-!
Verification of the HRV stress-classification pipeline of
`MPA_stress_detector.py` (repository Ilbapplescappies/vids).

The pipeline is embedded shallowly:
* heart-rate and interval series are `List (Option ℚ)` — `none` models a
  missing value (pandas `NaN`), `some v` a defined sample;
* RMSSD values live in `ℝ` because `calculate_rmssd` takes a square root;
* library calls (`pandas.Series.interpolate`, `resample('1S').mean()`,
  `ffill`) are modelled by explicit Lean functions whose doc comments state
  the library semantics they reproduce.
-/

namespace StressDetector

/-- The four stress labels returned by `classify_stress_hierarchy`,
ordered from highest to lowest arousal. -/
inductive Label where
  | Stressed
  | Aroused
  | Stable
  | Relaxed
deriving DecidableEq, Repr

/-- Position of a label in the arousal order
Stressed < Aroused < Stable < Relaxed (0 = most aroused). -/
def Label.rank : Label → Nat
  | .Stressed => 0
  | .Aroused => 1
  | .Stable => 2
  | .Relaxed => 3

/-- Embedding of `classify_stress_hierarchy(rmssd_value, mean_rmssd, std_rmssd)`
(source lines 67–77): a chain of guarded returns, first match wins. -/
noncomputable def classify_stress_hierarchy
    (rmssd_value mean_rmssd std_rmssd : ℝ) : Label :=
  if std_rmssd < 0.001 then .Stable
  else if rmssd_value ≤ mean_rmssd - 0.7 * std_rmssd then .Stressed
  else if rmssd_value ≤ mean_rmssd - 0.5 * std_rmssd then .Aroused
  else if rmssd_value ≤ mean_rmssd + 0.25 * std_rmssd then .Stable
  else .Relaxed

/-- Embedding of the session-level aggregation of
`process_stress_from_dataframe` (source lines 102–109): membership tests on
the window of per-sample labels, in priority order. -/
def aggregate (labels : List Label) : Label :=
  if Label.Stressed ∈ labels then .Stressed
  else if Label.Aroused ∈ labels then .Aroused
  else if Label.Stable ∈ labels then .Stable
  else .Relaxed

/-- Masking step of `remove_outliers_and_interpolate` (source line 45):
`mask((col < low) | (col > high), nan)`.  A pandas comparison with `NaN` is
false, so missing entries stay missing. -/
def maskOutliers (low high : ℚ) (s : List (Option ℚ)) : List (Option ℚ) :=
  s.map fun x => match x with
    | none => none
    | some v => if v < low ∨ high < v then none else some v

/-- Index of the nearest defined entry strictly before position `i`, with its
value: the left neighbour used by linear interpolation. -/
def prevDefined (s : List (Option ℚ)) (i : Nat) : Option (Nat × ℚ) :=
  (List.range i).foldl
    (fun acc j => match s[j]? with
      | some (some v) => some (j, v)
      | _ => acc)
    none

/-- Index of the nearest defined entry at or after position `i`, with its
value: the right neighbour used by linear interpolation. -/
def nextDefined (s : List (Option ℚ)) (i : Nat) : Option (Nat × ℚ) :=
  (List.range (s.length - i)).foldr
    (fun d acc => match s[i + d]? with
      | some (some v) => some (i + d, v)
      | _ => acc)
    none

/-- Value of `pandas.Series.interpolate(method='linear')` at position `i`
(default parameters, hence `limit_direction='forward'`): a defined entry is
kept; a missing entry with defined neighbours on both sides is linearly
interpolated on positions; a missing entry after the last defined entry is
clamped to that entry's value (`np.interp` does not extrapolate); a missing
entry before the first defined entry is left missing. -/
def interpAt (s : List (Option ℚ)) (i : Nat) : Option ℚ :=
  match s[i]? with
  | some (some v) => some v
  | _ =>
    match prevDefined s i, nextDefined s i with
    | some (j1, v1), some (j2, v2) =>
        some (v1 + (v2 - v1) * ((i : ℚ) - (j1 : ℚ)) / ((j2 : ℚ) - (j1 : ℚ)))
    | some (_, v1), none => some v1
    | none, _ => none

/-- Embedding of `pandas.Series.interpolate(method='linear')` with default
parameters, applied positionally to the whole series. -/
def interpolateLinear (s : List (Option ℚ)) : List (Option ℚ) :=
  (List.range s.length).map (interpAt s)

/-- Embedding of `remove_outliers_and_interpolate(df, column, 300, 2000)`
(source lines 44–47): mask implausible intervals, then linearly
interpolate. -/
def remove_outliers_and_interpolate (s : List (Option ℚ)) : List (Option ℚ) :=
  interpolateLinear (maskOutliers 300 2000 s)

/-- Successive differences of a list, `np.diff`. -/
def diffs : List ℚ → List ℚ
  | [] => []
  | [_] => []
  | a :: b :: rest => (b - a) :: diffs (b :: rest)

/-- The mean of the squared successive differences, computed in `ℚ`
(the mean of an empty list, which `calculate_rmssd` is never given,
defaults to `0` via division by zero). -/
def meanSquaredDiff (rr : List ℚ) : ℚ :=
  ((diffs rr).map (fun d => d ^ 2)).sum / ((diffs rr).length : ℚ)

/-- Embedding of `calculate_rmssd(rr_intervals)` (source lines 49–53):
`sqrt(mean(square(diff(rr_intervals))))`. -/
noncomputable def calculate_rmssd (rr : List ℚ) : ℝ :=
  Real.sqrt ((meanSquaredDiff rr : ℚ) : ℝ)

/-- The window starting at `start` of length `w`, with missing entries
dropped (`rr_series.iloc[start:end].dropna()`, source line 59). -/
def window (s : List (Option ℚ)) (start w : Nat) : List ℚ :=
  ((s.drop start).take w).filterMap id

/-- Number of iterations of `range(0, len(rr_series) - window_size + 1,
step_size)` (source line 57): `0` when the series is shorter than the
window, else one start every `step` positions up to `n - w`. -/
def numSteps (n w step : Nat) : Nat :=
  if w ≤ n then (n - w) / step + 1 else 0

/-- RMSSD value of the window starting at `k * step`, or `none` when the
window has fewer than 5 valid entries and line 62 is skipped. -/
noncomputable def stepValue (s : List (Option ℚ)) (w step k : Nat) : Option ℝ :=
  if 5 ≤ (window s (k * step) w).length
  then some (calculate_rmssd (window s (k * step) w)) else none

/-- The RMSSD values of the qualifying window steps, in step order. -/
noncomputable def qualifyingVals (s : List (Option ℚ)) (w step : Nat) : List ℝ :=
  (List.range (numSteps s.length w step)).filterMap (stepValue s w step)

/-- The flat list built by line 62's `rmssd_values.extend([rmssd] *
step_size)`: each qualifying value repeated `step` times, in step order. -/
noncomputable def rmssdBlocks (s : List (Option ℚ)) (w step : Nat) : List ℝ :=
  (qualifyingVals s w step).map (List.replicate step) |>.flatten

/-- Embedding of `compute_rmssd_series(rr_series, window_size, step_size)`
(source lines 55–65): the extended blocks, padded by repeating the last
value (lines 63–64; `NaN`, i.e. `none`, when no window qualified) up to the
series length, then truncated to it (line 65). -/
noncomputable def compute_rmssd_series (s : List (Option ℚ)) (w step : Nat) :
    List (Option ℝ) :=
  let n := s.length
  match (rmssdBlocks s w step).getLast? with
  | none => List.replicate n none
  | some last =>
      (((rmssdBlocks s w step).map some)
        ++ List.replicate (n - (rmssdBlocks s w step).length) (some last)).take n

/-- One observation of the snapshot: a timestamp in whole seconds and a
heart rate in beats per minute. -/
structure Obs where
  sec : Nat
  bpm : ℚ
deriving DecidableEq, Repr

/-- Embedding of `df.resample('1S').mean()`: one bin per whole second from
the first observation's second to the last observation's second inclusive,
holding the mean of the observations falling in it, or `none` for an empty
bin. -/
def resampleMean (obs : List Obs) : List (Option ℚ) :=
  match obs.head?, obs.getLast? with
  | some f, some l =>
      (List.range (l.sec - f.sec + 1)).map fun k =>
        let vals := (obs.filter (fun p => p.sec = f.sec + k)).map Obs.bpm
        if vals.length = 0 then none else some (vals.sum / (vals.length : ℚ))
  | _, _ => []

/-- Forward fill (`.ffill()`) with the last seen defined value carried in
the accumulator. -/
def ffillAux : Option ℚ → List (Option ℚ) → List (Option ℚ)
  | _, [] => []
  | carry, none :: rest => carry :: ffillAux carry rest
  | _, some v :: rest => some v :: ffillAux (some v) rest

/-- Embedding of `pandas.DataFrame.ffill()`: each missing entry takes the
nearest earlier defined value; leading missing entries stay missing. -/
def ffill (s : List (Option ℚ)) : List (Option ℚ) :=
  ffillAux none s

/-- Outcome of one processing cycle: either the structured insufficient-data
error of source line 89, carrying the count of valid RMSSD values found, or
a classification record carrying the session label and the rounded mean
heart rate (the device id and wall-clock time of lines 113–114 are external
inputs, not computed by the pipeline). -/
inductive CycleResult where
  | insufficient (found : Nat)
  | record (stress_flag : Label) (heart_rate : ℤ)

/-- Python's `round` (banker's rounding, half to even), as used by
`int(round(avg_hr))` on source line 116. -/
def pythonRound (q : ℚ) : ℤ :=
  let f := ⌊q⌋
  if q - f < 1 / 2 then f
  else if 1 / 2 < q - f then f + 1
  else if Even f then f else f + 1

/-- The interval series fed to the RMSSD estimator by
`process_stress_from_dataframe` (source lines 80–83): resample to one bin
per second, forward-fill, linearly interpolate, convert heart rate to
RR intervals by `60000 / hr`, then mask and interpolate outliers. -/
def rrSeries (obs : List Obs) : List (Option ℚ) :=
  let hrInterp := interpolateLinear (ffill (resampleMean obs))
  remove_outliers_and_interpolate (hrInterp.map (Option.map (fun h => 60000 / h)))

/-- The RMSSD series of the cycle (source lines 84–85), with the default
window of 15 and step of 5. -/
noncomputable def rmssdSeries (obs : List Obs) : List (Option ℝ) :=
  compute_rmssd_series (rrSeries obs) 15 5

/-- The valid (defined) RMSSD values, `resampled['RMSSD'].dropna()`
(source line 86). -/
noncomputable def validRmssd (obs : List Obs) : List ℝ :=
  (rmssdSeries obs).filterMap id

/-- Embedding of `process_stress_from_dataframe(df)` (source lines 79–117):
the full cycle, returning the insufficient-data outcome when fewer than 5
valid RMSSD values exist, and otherwise classifying the last (up to) 15
valid values against the mean and population standard deviation of all of
them, aggregating with the fixed priority order, and reporting the rounded
mean raw heart rate. -/
noncomputable def process_stress_from_dataframe (obs : List Obs) : CycleResult :=
  let valid := validRmssd obs
  if valid.length < 5 then .insufficient valid.length
  else
    let μ : ℝ := valid.sum / (valid.length : ℝ)
    let σ : ℝ := Real.sqrt ((valid.map (fun x => (x - μ) ^ 2)).sum / (valid.length : ℝ))
    let lastWindow := valid.drop (valid.length - 15)
    let labels := lastWindow.map (fun x => classify_stress_hierarchy x μ σ)
    let avg := ((obs.map Obs.bpm).sum / (obs.length : ℚ))
    .record (aggregate labels) (pythonRound avg)

/-! ## Claims about the classifier -/

/-- C4: the classifier's label is determined by the first matching rule in
order: `σ < 0.001` gives Stable; else `v ≤ μ − 0.7σ` gives Stressed; else
`v ≤ μ − 0.5σ` gives Aroused; else `v ≤ μ + 0.25σ` gives Stable; else
Relaxed.  Stated as an exact characterization of each label by the
region of `(v, μ, σ)` the first-match rule assigns it. -/
theorem classify_first_match_characterization (v μ σ : ℝ) :
    (classify_stress_hierarchy v μ σ = .Stable ↔
      (σ < 0.001 ∨ (0.001 ≤ σ ∧ μ - 0.5 * σ < v ∧ v ≤ μ + 0.25 * σ))) ∧
    (classify_stress_hierarchy v μ σ = .Stressed ↔
      (0.001 ≤ σ ∧ v ≤ μ - 0.7 * σ)) ∧
    (classify_stress_hierarchy v μ σ = .Aroused ↔
      (0.001 ≤ σ ∧ μ - 0.7 * σ < v ∧ v ≤ μ - 0.5 * σ)) ∧
    (classify_stress_hierarchy v μ σ = .Relaxed ↔
      (0.001 ≤ σ ∧ μ + 0.25 * σ < v)) := by
  refine ⟨?_, ?_, ?_, ?_⟩ <;>
    · unfold classify_stress_hierarchy
      split_ifs with h1 h2 h3 h4 <;> push_neg at * <;> simp <;>
        first
          | exact Or.inl h1
          | exact Or.inr ⟨h1, h3, h4⟩
          | exact ⟨h1, h2⟩
          | exact ⟨h1, h2, h3⟩
          | exact ⟨h1, h4⟩
          | (intros; linarith)
          | (constructor <;> intros <;> linarith)

/-- C8: for fixed `(μ, σ)` the classification is monotone in `v`: a lower
variability value never receives a strictly calmer label in the order
Stressed < Aroused < Stable < Relaxed. -/
theorem classify_monotone (μ σ v1 v2 : ℝ) (h : v1 ≤ v2) :
    (classify_stress_hierarchy v1 μ σ).rank ≤
      (classify_stress_hierarchy v2 μ σ).rank := by
  unfold classify_stress_hierarchy
  split_ifs <;> simp [Label.rank] <;> linarith

/-- Witness for C8 at `μ = 0`, `σ = 1`, `v1 = -1`, `v2 = 1`. -/
theorem classify_monotone_witness :
    (classify_stress_hierarchy (-1) 0 1).rank ≤
      (classify_stress_hierarchy 1 0 1).rank :=
  classify_monotone 0 1 (-1) 1 (by norm_num)

/-! ## Claims about aggregation -/

/-- C5: the session label is Stressed when any per-sample label is
Stressed; else Aroused when any is Aroused; else Stable when any is
Stable; else Relaxed.  In particular one Stressed entry forces Stressed. -/
theorem aggregate_priority (ls : List Label) :
    (Label.Stressed ∈ ls → aggregate ls = .Stressed) ∧
    (Label.Stressed ∉ ls → Label.Aroused ∈ ls → aggregate ls = .Aroused) ∧
    (Label.Stressed ∉ ls → Label.Aroused ∉ ls → Label.Stable ∈ ls →
      aggregate ls = .Stable) ∧
    (Label.Stressed ∉ ls → Label.Aroused ∉ ls → Label.Stable ∉ ls →
      aggregate ls = .Relaxed) := by
  unfold aggregate
  split_ifs with h1 h2 h3 <;> refine ⟨?_, ?_, ?_, ?_⟩ <;> intros <;>
    first | rfl | tauto

/-- Witness for C5: a window mixing all labels with one Stressed entry
aggregates to Stressed. -/
theorem aggregate_priority_witness :
    aggregate [Label.Relaxed, Label.Stable, Label.Stressed, Label.Aroused] =
      Label.Stressed :=
  (aggregate_priority _).1 (by simp)

/-! ## Claims about outlier masking and interpolation -/

theorem maskOutliers_of_inRange : ∀ {s : List (Option ℚ)},
    (∀ x ∈ s, ∃ v, x = some v ∧ 300 ≤ v ∧ v ≤ 2000) →
    maskOutliers 300 2000 s = s
  | [], _ => rfl
  | a :: t, h => by
    obtain ⟨v, rfl, hv1, hv2⟩ := h a (by simp)
    have ht := maskOutliers_of_inRange (fun x hx => h x (List.mem_cons_of_mem _ hx))
    show (if v < 300 ∨ 2000 < v then (none : Option ℚ) else some v) ::
        maskOutliers 300 2000 t = some v :: t
    rw [if_neg (by push_neg; exact ⟨hv1, hv2⟩), ht]

theorem interpolateLinear_of_allSome {s : List (Option ℚ)}
    (h : ∀ x ∈ s, x.isSome) : interpolateLinear s = s := by
  apply List.ext_getElem?
  intro n
  simp only [interpolateLinear, List.getElem?_map]
  by_cases hn : n < s.length
  · rw [List.getElem?_range hn]
    have hx : s[n]? = some s[n] := List.getElem?_eq_getElem hn
    have hxs : s[n].isSome := h s[n] (List.getElem_mem hn)
    obtain ⟨v, hv⟩ := Option.isSome_iff_exists.mp hxs
    simp [interpAt, hx, hv]
  · rw [List.getElem?_eq_none (by simpa using not_lt.mp hn),
      List.getElem?_eq_none (not_lt.mp hn)]
    rfl

/-- C9: on a series whose every entry is defined and already inside the
300–2000 ms bounds, the mask-and-interpolate step is the identity, and in
particular applying it twice equals applying it once. -/
theorem remove_outliers_idempotent_on_clean (s : List (Option ℚ))
    (h : ∀ x ∈ s, ∃ v, x = some v ∧ 300 ≤ v ∧ v ≤ 2000) :
    remove_outliers_and_interpolate s = s ∧
    remove_outliers_and_interpolate (remove_outliers_and_interpolate s) =
      remove_outliers_and_interpolate s := by
  have h1 : remove_outliers_and_interpolate s = s := by
    rw [remove_outliers_and_interpolate, maskOutliers_of_inRange h]
    exact interpolateLinear_of_allSome fun x hx =>
      (h x hx).elim fun v hv => by simp [hv.1]
  exact ⟨h1, by rw [h1, h1]⟩

/-- Witness for C9 on the clean series `[1000, 1500]`. -/
theorem remove_outliers_idempotent_witness :
    remove_outliers_and_interpolate [some 1000, some 1500] =
        [some 1000, some 1500] ∧
      remove_outliers_and_interpolate
          (remove_outliers_and_interpolate [some 1000, some 1500]) =
        remove_outliers_and_interpolate [some 1000, some 1500] :=
  remove_outliers_idempotent_on_clean _ (by
    intro x hx
    simp only [List.mem_cons, List.not_mem_nil, or_false] at hx
    rcases hx with rfl | rfl
    · exact ⟨1000, rfl, by norm_num, by norm_num⟩
    · exact ⟨1500, rfl, by norm_num, by norm_num⟩)

theorem length_interpolateLinear (t : List (Option ℚ)) :
    (interpolateLinear t).length = t.length := by
  simp [interpolateLinear]

theorem length_maskOutliers (low high : ℚ) (t : List (Option ℚ)) :
    (maskOutliers low high t).length = t.length := by
  simp [maskOutliers]

theorem interpolateLinear_getElem? (t : List (Option ℚ)) (i : Nat)
    (h : i < t.length) : (interpolateLinear t)[i]? = some (interpAt t i) := by
  simp only [interpolateLinear, List.getElem?_map, List.getElem?_range h]
  rfl

theorem maskOutliers_getElem? (low high : ℚ) (t : List (Option ℚ)) (i : Nat) :
    (maskOutliers low high t)[i]? =
      t[i]?.map fun x => match x with
        | none => none
        | some v => if v < low ∨ high < v then none else some v := by
  simp [maskOutliers]

/-- C2 as stated, restricted to its refutable clause: a masked entry at the
very end of the series, every position from it onward being masked (so it
has no valid neighbour on its right), remains missing in the output. -/
def maskedTailStaysMissing : Prop :=
  ∀ (s : List (Option ℚ)) (i : Nat),
    (maskOutliers 300 2000 s)[i]? = some none →
    (∀ j, i ≤ j → j < s.length → (maskOutliers 300 2000 s)[j]? = some none) →
    (remove_outliers_and_interpolate s)[i]? = some none

/-- Counterexample to C2: in `[1000 ms, 2500 ms]` the second value is
masked (2500 > 2000) and has no valid right neighbour, yet the output
holds `1000` there (pandas `interpolate` clamps trailing gaps to the last
valid value instead of leaving them missing). -/
theorem mask_interp_tail_counterexample : ¬ maskedTailStaysMissing := by
  intro h
  have h2 := h [some 1000, some 2500] 1 (by decide) (by
    intro j hj1 hj2
    simp only [List.length_cons, List.length_nil] at hj2
    have : j = 1 := by omega
    subst this
    decide)
  exact absurd h2 (by decide)

/-- C2 (amended): masking sets every value strictly outside 300–2000 ms to
missing; in-range values survive unchanged; a missing entry with defined
neighbours on both sides is linearly interpolated between them; a missing
entry with no defined entry before it stays missing; but a missing entry
with a defined entry before it and none after it is filled with that last
defined value rather than remaining missing. -/
theorem mask_interp_characterization (s : List (Option ℚ)) :
    (remove_outliers_and_interpolate s).length = s.length ∧
    (∀ (i : Nat) (v : ℚ), s[i]? = some (some v) → (v < 300 ∨ 2000 < v) →
      (maskOutliers 300 2000 s)[i]? = some none) ∧
    (∀ (i : Nat) (v : ℚ), s[i]? = some (some v) → 300 ≤ v → v ≤ 2000 →
      (remove_outliers_and_interpolate s)[i]? = some (some v)) ∧
    (∀ i : Nat, i < s.length → (maskOutliers 300 2000 s)[i]? = some none →
      (prevDefined (maskOutliers 300 2000 s) i = none →
        (remove_outliers_and_interpolate s)[i]? = some none) ∧
      (∀ (j1 : Nat) (v1 : ℚ) (j2 : Nat) (v2 : ℚ),
        prevDefined (maskOutliers 300 2000 s) i = some (j1, v1) →
        nextDefined (maskOutliers 300 2000 s) i = some (j2, v2) →
        (remove_outliers_and_interpolate s)[i]? =
          some (some (v1 + (v2 - v1) * ((i : ℚ) - (j1 : ℚ)) /
            ((j2 : ℚ) - (j1 : ℚ))))) ∧
      (∀ (j1 : Nat) (v1 : ℚ),
        prevDefined (maskOutliers 300 2000 s) i = some (j1, v1) →
        nextDefined (maskOutliers 300 2000 s) i = none →
        (remove_outliers_and_interpolate s)[i]? = some (some v1))) := by
  refine ⟨?_, ?_, ?_, ?_⟩
  · rw [remove_outliers_and_interpolate, length_interpolateLinear,
      length_maskOutliers]
  · intro i v hi hv
    rw [maskOutliers_getElem? 300 2000 s i, hi]
    show some (if v < 300 ∨ 2000 < v then (none : Option ℚ) else some v) =
      some none
    rw [if_pos hv]
  · intro i v hi hv1 hv2
    have hlen : i < s.length := by
      by_contra hc
      rw [List.getElem?_eq_none (not_lt.mp hc)] at hi
      exact Option.noConfusion hi
    have hm : (maskOutliers 300 2000 s)[i]? = some (some v) := by
      rw [maskOutliers_getElem? 300 2000 s i, hi]
      show some (if v < 300 ∨ 2000 < v then (none : Option ℚ) else some v) =
        some (some v)
      rw [if_neg (by push_neg; exact ⟨hv1, hv2⟩)]
    rw [remove_outliers_and_interpolate,
      interpolateLinear_getElem? _ _ (by rw [length_maskOutliers]; exact hlen)]
    rw [interpAt, hm]
  · intro i hlen hm
    have hout : (remove_outliers_and_interpolate s)[i]? =
        some (interpAt (maskOutliers 300 2000 s) i) := by
      rw [remove_outliers_and_interpolate,
        interpolateLinear_getElem? _ _ (by rw [length_maskOutliers]; exact hlen)]
    refine ⟨?_, ?_, ?_⟩
    · intro hprev
      rw [hout, interpAt, hm, hprev]
    · intro j1 v1 j2 v2 hprev hnext
      rw [hout, interpAt, hm, hprev, hnext]
    · intro j1 v1 hprev hnext
      rw [hout, interpAt, hm, hprev, hnext]

/-- Witness for C2 (amended) on `[400 ms, 2500 ms, 700 ms]`: the middle
value is masked and linearly interpolated from its two neighbours. -/
theorem mask_interp_characterization_witness :
    (remove_outliers_and_interpolate [some 400, some 2500, some 700])[1]? =
      some (some (400 + (700 - 400) * ((1 : ℚ) - (0 : ℚ)) /
        ((2 : ℚ) - (0 : ℚ)))) :=
  ((mask_interp_characterization [some 400, some 2500, some 700]).2.2.2
    1 (by decide) (by decide)).2.1 0 400 2 700 (by decide) (by decide)

/-! ## Structure of the RMSSD series -/

theorem length_flatten_replicate (step : Nat) (l : List ℝ) :
    ((l.map (List.replicate step)).flatten).length = step * l.length := by
  induction l with
  | nil => simp
  | cons a t ih =>
    simp only [List.map_cons, List.flatten_cons, List.length_append,
      List.length_replicate, List.length_cons, ih, Nat.mul_succ]
    omega

theorem getElem?_flatten_replicate (step : Nat) (hstep : 0 < step)
    (l : List ℝ) (i : Nat) (h : i < step * l.length) :
    ((l.map (List.replicate step)).flatten)[i]? = l[i / step]? := by
  induction l generalizing i with
  | nil => simp at h
  | cons a t ih =>
    simp only [List.map_cons, List.flatten_cons]
    by_cases hi : i < step
    · rw [List.getElem?_append_left (by simpa using hi),
        List.getElem?_replicate_of_lt hi, Nat.div_eq_of_lt hi]
      simp
    · push_neg at hi
      rw [List.getElem?_append_right (by simpa using hi)]
      have h2 : i - step < step * t.length := by
        rw [List.length_cons, Nat.mul_succ] at h
        omega
      have h3 : i / step = (i - step) / step + 1 :=
        Nat.div_eq_sub_div hstep hi
      simp only [List.length_replicate]
      rw [ih (i - step) h2, h3, List.getElem?_cons_succ]

theorem length_rmssdBlocks (s : List (Option ℚ)) (w step : Nat) :
    (rmssdBlocks s w step).length = step * (qualifyingVals s w step).length :=
  length_flatten_replicate step (qualifyingVals s w step)

theorem length_compute_rmssd_series (s : List (Option ℚ)) (w step : Nat) :
    (compute_rmssd_series s w step).length = s.length := by
  rw [compute_rmssd_series]
  cases h : (rmssdBlocks s w step).getLast? with
  | none => simp
  | some last =>
    simp only [List.length_take, List.length_append, List.length_map,
      List.length_replicate]
    omega

/-- Inside the extended blocks, the output keeps the block value. -/
theorem compute_rmssd_series_getElem_block (s : List (Option ℚ)) (w step : Nat)
    (i : Nat) (hi : i < s.length) (hib : i < (rmssdBlocks s w step).length) :
    (compute_rmssd_series s w step)[i]? =
      ((rmssdBlocks s w step)[i]?).map some := by
  rw [compute_rmssd_series]
  cases h : (rmssdBlocks s w step).getLast? with
  | none =>
    rw [List.getLast?_eq_none_iff.mp h] at hib
    simp at hib
  | some last =>
    rw [List.getElem?_take_of_lt hi,
      List.getElem?_append_left (by simpa using hib), List.getElem?_map]

/-- Beyond the extended blocks, the output repeats the last block value. -/
theorem compute_rmssd_series_getElem_pad (s : List (Option ℚ)) (w step : Nat)
    (i : Nat) (hi : i < s.length) (hib : (rmssdBlocks s w step).length ≤ i)
    (last : ℝ) (h : (rmssdBlocks s w step).getLast? = some last) :
    (compute_rmssd_series s w step)[i]? = some (some last) := by
  simp only [compute_rmssd_series, h]
  rw [List.getElem?_take_of_lt hi,
    List.getElem?_append_right (by simpa using hib)]
  simp only [List.length_map]
  rw [List.getElem?_replicate_of_lt (by omega)]

/-- When no window qualified, the whole output is undefined. -/
theorem compute_rmssd_series_getElem_nan (s : List (Option ℚ)) (w step : Nat)
    (i : Nat) (hi : i < s.length) (h : rmssdBlocks s w step = []) :
    (compute_rmssd_series s w step)[i]? = some none := by
  rw [compute_rmssd_series, h]
  simp [List.getElem?_replicate, hi]

theorem rmssdBlocks_eq_nil_iff (s : List (Option ℚ)) (w step : Nat)
    (hstep : 0 < step) :
    rmssdBlocks s w step = [] ↔ qualifyingVals s w step = [] := by
  constructor
  · intro h
    have := length_rmssdBlocks s w step
    rw [h] at this
    simp only [List.length_nil] at this
    rcases Nat.mul_eq_zero.mp this.symm with h0 | h0
    · omega
    · exact List.length_eq_zero.mp h0
  · intro h
    rw [rmssdBlocks, h]
    rfl

/-- C10: the RMSSD series always has the length of its input series, and
its definedness is all-or-nothing: when no window step qualified every
position is undefined, and when at least one did (the qualifying values
list is non-empty) every position is defined — blocks are laid down from
position 0 and the tail repeats the last computed value. -/
theorem rmssd_series_all_or_nothing (s : List (Option ℚ)) :
    (compute_rmssd_series s 15 5).length = s.length ∧
    ((qualifyingVals s 15 5 = [] ∧
        ∀ i, i < s.length → (compute_rmssd_series s 15 5)[i]? = some none) ∨
      (qualifyingVals s 15 5 ≠ [] ∧
        ∀ i, i < s.length → ∃ r : ℝ,
          (compute_rmssd_series s 15 5)[i]? = some (some r))) := by
  refine ⟨length_compute_rmssd_series s 15 5, ?_⟩
  by_cases hq : qualifyingVals s 15 5 = []
  · exact Or.inl ⟨hq, fun i hi => compute_rmssd_series_getElem_nan s 15 5 i hi
      ((rmssdBlocks_eq_nil_iff s 15 5 (by norm_num)).mpr hq)⟩
  · refine Or.inr ⟨hq, fun i hi => ?_⟩
    have hbne : rmssdBlocks s 15 5 ≠ [] := fun hcon =>
      hq ((rmssdBlocks_eq_nil_iff s 15 5 (by norm_num)).mp hcon)
    by_cases hib : i < (rmssdBlocks s 15 5).length
    · have hb : (rmssdBlocks s 15 5)[i]? = some ((rmssdBlocks s 15 5)[i]) :=
        List.getElem?_eq_getElem hib
      refine ⟨(rmssdBlocks s 15 5)[i], ?_⟩
      rw [compute_rmssd_series_getElem_block s 15 5 i hi hib, hb]
      rfl
    · push_neg at hib
      obtain ⟨last, hlast⟩ := Option.isSome_iff_exists.mp
        (List.getLast?_isSome.mpr hbne)
      exact ⟨last, compute_rmssd_series_getElem_pad s 15 5 i hi hib last hlast⟩

/-- Witness for C10 on a three-sample series (shorter than one window):
the output has length 3 and is undefined everywhere. -/
theorem rmssd_series_all_or_nothing_witness :
    (compute_rmssd_series [none, none, none] 15 5).length =
      ([none, none, none] : List (Option ℚ)).length ∧
    ((qualifyingVals [none, none, none] 15 5 = [] ∧
        ∀ i, i < ([none, none, none] : List (Option ℚ)).length →
          (compute_rmssd_series [none, none, none] 15 5)[i]? = some none) ∨
      (qualifyingVals [none, none, none] 15 5 ≠ [] ∧
        ∀ i, i < ([none, none, none] : List (Option ℚ)).length → ∃ r : ℝ,
          (compute_rmssd_series [none, none, none] 15 5)[i]? =
            some (some r))) :=
  rmssd_series_all_or_nothing [none, none, none]

theorem rmssdBlocks_getElem? (s : List (Option ℚ)) (w step : Nat)
    (hstep : 0 < step) (i : Nat)
    (h : i < step * (qualifyingVals s w step).length) :
    (rmssdBlocks s w step)[i]? = (qualifyingVals s w step)[i / step]? :=
  getElem?_flatten_replicate step hstep _ i h

/-- C1 (amended): the RMSSD scalar of the k-th *qualifying* window step
(counting only steps with at least 5 valid entries, in step order) is
assigned to the `S = 5` consecutive output positions starting at `5·k`:
blocks are laid down contiguously from position 0 in qualifying-step
order, so they coincide with the steps' own covered positions only when
no earlier step was skipped — a skipped step's positions are taken by the
following qualifying steps' values, not left for padding. -/
theorem rmssd_block_positions (s : List (Option ℚ)) (k : Nat) (v : ℝ)
    (hk : (qualifyingVals s 15 5)[k]? = some v)
    (i : Nat) (h1 : 5 * k ≤ i) (h2 : i < 5 * k + 5) (hi : i < s.length) :
    (compute_rmssd_series s 15 5)[i]? = some (some v) := by
  have hklt : k < (qualifyingVals s 15 5).length := by
    rcases List.getElem?_eq_some_iff.mp hk with ⟨hlt, _⟩
    exact hlt
  have hq5 : i < 5 * (qualifyingVals s 15 5).length := by
    have h3 : 5 * (k + 1) ≤ 5 * (qualifyingVals s 15 5).length :=
      Nat.mul_le_mul_left 5 hklt
    omega
  have hib : i < (rmssdBlocks s 15 5).length := by
    rw [length_rmssdBlocks]
    exact hq5
  have hdiv : i / 5 = k := Nat.div_eq_of_lt_le (by omega) (by omega)
  rw [compute_rmssd_series_getElem_block s 15 5 i hi hib,
    rmssdBlocks_getElem? s 15 5 (by norm_num) i hq5, hdiv, hk]
  rfl

/-- Witness for C1 (amended): on 20 constant intervals both window steps
qualify, and position 2 of the output carries the first qualifying step's
RMSSD value. -/
theorem rmssd_block_positions_witness :
    (compute_rmssd_series (List.replicate 20 (some (1000 : ℚ))) 15 5)[2]? =
      some (some (calculate_rmssd
        (window (List.replicate 20 (some (1000 : ℚ))) (0 * 5) 15))) := by
  have e0 : stepValue (List.replicate 20 (some (1000 : ℚ))) 15 5 0 =
      some (calculate_rmssd
        (window (List.replicate 20 (some (1000 : ℚ))) (0 * 5) 15)) := by
    unfold stepValue
    rw [if_pos (by decide)]
  have hk : (qualifyingVals (List.replicate 20 (some (1000 : ℚ))) 15 5)[0]? =
      some (calculate_rmssd
        (window (List.replicate 20 (some (1000 : ℚ))) (0 * 5) 15)) := by
    unfold qualifyingVals
    rw [show numSteps (List.replicate 20 (some (1000 : ℚ))).length 15 5 = 2
      from by decide]
    rw [show List.range 2 = [0, 1] from by decide]
    simp only [List.filterMap_cons, e0]
    rfl
  exact rmssd_block_positions _ 0 _ hk 2 (by norm_num) (by norm_num) (by simp)

/-- The 30-sample interval series refuting C1 as stated: the window step
starting at 0 qualifies, the step starting at 5 is skipped (4 valid
entries), and the steps starting at 10 and 15 qualify with different RMSSD
values. -/
def exSeries : List (Option ℚ) :=
  [some 1000, some 1100, some 1000, some 1100, some 1000] ++
    List.replicate 11 none ++ List.replicate 9 (some 1000) ++
    [some 1100, some 1000, some 1100, some 1000, some 1100]

/-- C1 as stated: every window step with at least 5 valid entries assigns
its RMSSD scalar to exactly the `S = 5` output positions covered by that
step. -/
def blockAlignedClaim : Prop :=
  ∀ (s : List (Option ℚ)) (k : Nat),
    k < numSteps s.length 15 5 →
    5 ≤ (window s (k * 5) 15).length →
    ∀ i : Nat, k * 5 ≤ i → i < k * 5 + 5 → i < s.length →
      (compute_rmssd_series s 15 5)[i]? =
        some (some (calculate_rmssd (window s (k * 5) 15)))

/-- Counterexample to C1: on `exSeries` the step starting at position 10
qualifies (9 valid entries, RMSSD 0), yet output position 10 carries the
RMSSD of the *next* qualifying step (√(50000/13) ≠ 0), because the code
appends each qualifying block after the previous one instead of aligning
it with its own step. -/
theorem rmssd_block_misalignment_counterexample : ¬ blockAlignedClaim := by
  intro hclaim
  have h := hclaim exSeries 2 (by decide) (by decide) 10
    (by norm_num) (by norm_num) (by decide)
  have e0 : stepValue exSeries 15 5 0 =
      some (calculate_rmssd (window exSeries (0 * 5) 15)) := by
    unfold stepValue
    rw [if_pos (by decide)]
  have e1 : stepValue exSeries 15 5 1 = none := by
    unfold stepValue
    rw [if_neg (by decide)]
  have e2 : stepValue exSeries 15 5 2 =
      some (calculate_rmssd (window exSeries (2 * 5) 15)) := by
    unfold stepValue
    rw [if_pos (by decide)]
  have e3 : stepValue exSeries 15 5 3 =
      some (calculate_rmssd (window exSeries (3 * 5) 15)) := by
    unfold stepValue
    rw [if_pos (by decide)]
  have hq : qualifyingVals exSeries 15 5 =
      [calculate_rmssd (window exSeries (0 * 5) 15),
       calculate_rmssd (window exSeries (2 * 5) 15),
       calculate_rmssd (window exSeries (3 * 5) 15)] := by
    unfold qualifyingVals
    rw [show numSteps exSeries.length 15 5 = 4 from by decide]
    rw [show List.range 4 = [0, 1, 2, 3] from by decide]
    simp only [List.filterMap_cons, e0, e1, e2, e3, List.filterMap_nil]
  have hact : (compute_rmssd_series exSeries 15 5)[10]? =
      some (some (calculate_rmssd (window exSeries (3 * 5) 15))) := by
    rw [compute_rmssd_series_getElem_block exSeries 15 5 10 (by decide)
        (by rw [length_rmssdBlocks, hq]; norm_num),
      rmssdBlocks_getElem? exSeries 15 5 (by norm_num) 10
        (by rw [hq]; norm_num),
      show (10 : Nat) / 5 = 2 from by norm_num, hq]
    rfl
  have heq := h.symm.trans hact
  simp only [Option.some.injEq] at heq
  have w2 : window exSeries (2 * 5) 15 =
      [1000, 1000, 1000, 1000, 1000, 1000, 1000, 1000, 1000] := by decide
  have w3 : window exSeries (3 * 5) 15 =
      [1000, 1000, 1000, 1000, 1000, 1000, 1000, 1000, 1000,
       1100, 1000, 1100, 1000, 1100] := by decide
  have m2 : meanSquaredDiff (window exSeries (2 * 5) 15) = 0 := by
    rw [w2]
    simp [meanSquaredDiff, diffs]
  have m3 : meanSquaredDiff (window exSeries (3 * 5) 15) = 50000 / 13 := by
    rw [w3]
    simp only [meanSquaredDiff, diffs, List.map_cons, List.map_nil,
      List.sum_cons, List.sum_nil, List.length_cons, List.length_nil]
    norm_num
  unfold calculate_rmssd at heq
  rw [m2, m3] at heq
  have hz : Real.sqrt (((0 : ℚ) : ℝ)) = 0 := by
    push_cast
    exact Real.sqrt_zero
  have hpos : 0 < Real.sqrt (((50000 / 13 : ℚ) : ℝ)) :=
    Real.sqrt_pos.mpr (by push_cast; norm_num)
  rw [hz] at heq
  linarith

/-! ## Claims about the processing cycle -/

/-- C6: a classification record is produced if and only if at least 5
valid RMSSD entries exist; with fewer, the cycle returns the structured
insufficient-data outcome carrying the number of valid entries found, and
no classification is performed. -/
theorem insufficient_data_gate (obs : List Obs) :
    ((validRmssd obs).length < 5 →
      process_stress_from_dataframe obs =
        .insufficient (validRmssd obs).length) ∧
    (5 ≤ (validRmssd obs).length →
      ∃ lab hr, process_stress_from_dataframe obs = .record lab hr) := by
  constructor
  · intro h
    simp only [process_stress_from_dataframe]
    rw [if_pos h]
  · intro h
    simp only [process_stress_from_dataframe]
    rw [if_neg (not_lt.mpr h)]
    exact ⟨_, _, rfl⟩

/-- Witness for C6: the empty snapshot yields no valid RMSSD value and the
cycle returns the insufficient-data outcome. -/
theorem insufficient_data_gate_witness :
    process_stress_from_dataframe [] =
      CycleResult.insufficient (validRmssd []).length :=
  (insufficient_data_gate []).1 (by decide)

/-! ## Claims about the resampler -/

theorem length_ffillAux (c : Option ℚ) (l : List (Option ℚ)) :
    (ffillAux c l).length = l.length := by
  induction l generalizing c with
  | nil => rfl
  | cons a t ih => cases a <;> simp [ffillAux, ih]

theorem length_ffill (l : List (Option ℚ)) : (ffill l).length = l.length :=
  length_ffillAux none l

theorem ffillAux_isSome (c : ℚ) (l : List (Option ℚ)) :
    ∀ x ∈ ffillAux (some c) l, x.isSome := by
  induction l generalizing c with
  | nil => intro x hx; simp [ffillAux] at hx
  | cons a t ih =>
    intro x hx
    cases a with
    | none =>
      simp only [ffillAux, List.mem_cons] at hx
      rcases hx with rfl | hx
      · rfl
      · exact ih c x hx
    | some v =>
      simp only [ffillAux, List.mem_cons] at hx
      rcases hx with rfl | hx
      · rfl
      · exact ih v x hx

theorem ffill_isSome_of_head (m : ℚ) (rest : List (Option ℚ)) :
    ∀ x ∈ ffill (some m :: rest), x.isSome := by
  intro x hx
  simp only [ffill, ffillAux, List.mem_cons] at hx
  rcases hx with rfl | hx
  · rfl
  · exact ffillAux_isSome m rest x hx

theorem resampleMean_cons (o : Obs) (t : List Obs) (l : Obs)
    (hl : (o :: t).getLast? = some l) :
    resampleMean (o :: t) =
      (List.range (l.sec - o.sec + 1)).map fun k =>
        let vals := ((o :: t).filter fun p => p.sec = o.sec + k).map Obs.bpm
        if vals.length = 0 then none
        else some (vals.sum / (vals.length : ℚ)) := by
  unfold resampleMean
  rw [show (o :: t).head? = some o from rfl, hl]

theorem cons_if_some (c : Prop) [Decidable c] (hc : ¬c) (a : ℚ)
    (tail : List (Option ℚ)) :
    ∃ m rest, (if c then (none : Option ℚ) else some a) :: tail =
      some m :: rest :=
  ⟨a, tail, by rw [if_neg hc]⟩

theorem resampleMean_cons_head (o : Obs) (t : List Obs) :
    ∃ m : ℚ, ∃ rest : List (Option ℚ),
      resampleMean (o :: t) = some m :: rest := by
  have hl : (o :: t).getLast? = some ((o :: t).getLast (List.cons_ne_nil o t)) :=
    List.getLast?_eq_getLast _ _
  rw [resampleMean_cons o t _ hl, List.range_succ_eq_map, List.map_cons]
  have hfil : ((o :: t).filter fun p => p.sec = o.sec + 0) =
      o :: t.filter fun p => p.sec = o.sec + 0 :=
    List.filter_cons_of_pos (by simp)
  simp only [hfil, List.map_cons, List.length_cons]
  exact cons_if_some _ (Nat.succ_ne_zero _) _ _

/-- C7: for every non-empty time-ordered snapshot, the resampled
heart-rate series (1-second binning, forward fill, linear interpolation)
has exactly one entry per whole second from the first observation's second
to the last observation's second inclusive, and every entry is defined. -/
theorem resampler_complete (obs : List Obs) (hne : obs ≠ [])
    (hsorted : List.Sorted (fun a b : Obs => a.sec ≤ b.sec) obs) :
    (interpolateLinear (ffill (resampleMean obs))).length =
      (obs.getLast hne).sec - (obs.head hne).sec + 1 ∧
    ∀ x ∈ interpolateLinear (ffill (resampleMean obs)), x.isSome := by
  cases obs with
  | nil => exact absurd rfl hne
  | cons o t =>
    have hl : (o :: t).getLast? = some ((o :: t).getLast (List.cons_ne_nil o t)) :=
      List.getLast?_eq_getLast _ _
    obtain ⟨m, rest, hmr⟩ := resampleMean_cons_head o t
    have hsome : ∀ x ∈ ffill (resampleMean (o :: t)), x.isSome := by
      rw [hmr]
      exact ffill_isSome_of_head m rest
    rw [interpolateLinear_of_allSome hsome]
    constructor
    · rw [length_ffill, resampleMean_cons o t _ hl, List.length_map,
        List.length_range]
      rfl
    · exact hsome

/-- Witness for C7 on the two-observation snapshot (second 0, 60 bpm) and
(second 2, 70 bpm): three entries, all defined. -/
theorem resampler_complete_witness :
    (interpolateLinear (ffill (resampleMean [⟨0, 60⟩, ⟨2, 70⟩]))).length =
      (([⟨0, 60⟩, ⟨2, 70⟩] : List Obs).getLast (by simp)).sec -
        (([⟨0, 60⟩, ⟨2, 70⟩] : List Obs).head (by simp)).sec + 1 ∧
    ∀ x ∈ interpolateLinear (ffill (resampleMean [⟨0, 60⟩, ⟨2, 70⟩])),
      x.isSome :=
  resampler_complete [⟨0, 60⟩, ⟨2, 70⟩] (by simp)
    (by simp [List.Sorted, List.pairwise_cons])

/-! ## Claims about sparse snapshots -/

theorem length_rrSeries (obs : List Obs) :
    (rrSeries obs).length = (resampleMean obs).length := by
  simp only [rrSeries, remove_outliers_and_interpolate]
  rw [length_interpolateLinear, length_maskOutliers, List.length_map,
    length_interpolateLinear, length_ffill]

theorem length_resampleMean_le (obs : List Obs)
    (hspan : ∀ a ∈ obs, ∀ b ∈ obs, a.sec ≤ b.sec + 13) :
    (resampleMean obs).length ≤ 14 := by
  cases obs with
  | nil => simp [resampleMean]
  | cons o t =>
    have hl : (o :: t).getLast? =
        some ((o :: t).getLast (List.cons_ne_nil o t)) :=
      List.getLast?_eq_getLast _ _
    rw [resampleMean_cons o t _ hl, List.length_map, List.length_range]
    have hmem : (o :: t).getLast (List.cons_ne_nil o t) ∈ o :: t :=
      List.getLast_mem _
    have := hspan _ hmem o (by simp)
    omega

/-- C3 (amended): for every snapshot with fewer than 5 raw observations
whose timestamps all lie within 13 seconds of one another (so that the
resampled series is shorter than one 15-sample window), the cycle returns
the insufficient-data outcome reporting 0 valid RMSSD values.  Fewer than
5 observations alone do not suffice: a sparse snapshot spanning enough
seconds resamples to a full-length series and is classified normally. -/
theorem insufficient_for_sparse_snapshot (obs : List Obs)
    (_hcount : obs.length < 5)
    (hspan : ∀ a ∈ obs, ∀ b ∈ obs, a.sec ≤ b.sec + 13) :
    process_stress_from_dataframe obs = .insufficient 0 := by
  have hn : (rrSeries obs).length ≤ 14 := by
    rw [length_rrSeries]
    exact length_resampleMean_le obs hspan
  have hq : qualifyingVals (rrSeries obs) 15 5 = [] := by
    unfold qualifyingVals numSteps
    rw [if_neg (by omega)]
    rfl
  have hblocks : rmssdBlocks (rrSeries obs) 15 5 = [] := by
    unfold rmssdBlocks
    rw [hq]
    rfl
  have hser : rmssdSeries obs = List.replicate (rrSeries obs).length none := by
    unfold rmssdSeries compute_rmssd_series
    rw [hblocks]
    rfl
  have hvalid : validRmssd obs = [] := by
    unfold validRmssd
    rw [hser]
    exact List.filterMap_replicate_of_none rfl
  simp only [process_stress_from_dataframe, hvalid, List.length_nil]
  rw [if_pos (by norm_num)]

/-- Witness for C3 (amended): one observation at second 0. -/
theorem insufficient_for_sparse_snapshot_witness :
    process_stress_from_dataframe [⟨0, 60⟩] = CycleResult.insufficient 0 :=
  insufficient_for_sparse_snapshot [⟨0, 60⟩] (by norm_num)
    (by
      intro a ha b hb
      simp only [List.mem_cons, List.not_mem_nil, or_false] at ha hb
      subst ha
      subst hb
      exact Nat.le_add_right _ _)

/-- Every output position is defined when at least one window qualified. -/
theorem compute_rmssd_series_isSome (s : List (Option ℚ)) (w step : Nat)
    (hne : rmssdBlocks s w step ≠ []) :
    ∀ x ∈ compute_rmssd_series s w step, x.isSome := by
  intro x hx
  obtain ⟨i, hgi⟩ := List.mem_iff_getElem?.mp hx
  have hi : i < s.length := by
    by_contra hc
    rw [List.getElem?_eq_none (by
      rw [length_compute_rmssd_series]
      omega)] at hgi
    exact Option.noConfusion hgi
  by_cases hib : i < (rmssdBlocks s w step).length
  · have hblk := compute_rmssd_series_getElem_block s w step i hi hib
    rw [hgi, List.getElem?_eq_getElem hib] at hblk
    have : x = some ((rmssdBlocks s w step)[i]) := by
      simpa using hblk
    rw [this]
    rfl
  · push_neg at hib
    obtain ⟨last, hlast⟩ := Option.isSome_iff_exists.mp
      (List.getLast?_isSome.mpr hne)
    have hpad := compute_rmssd_series_getElem_pad s w step i hi hib last hlast
    rw [hgi] at hpad
    have : x = some last := by
      simpa using hpad
    rw [this]
    rfl

/-- The two-observation snapshot refuting C3 as stated: 2 observations,
30 seconds apart. -/
def cexObs : List Obs := [⟨0, 60⟩, ⟨30, 60⟩]

/-- C3 as stated: every snapshot with fewer than 5 raw observations makes
the cycle return the insufficient-data outcome reporting 0 valid RMSSD
values. -/
def sparseClaim : Prop :=
  ∀ obs : List Obs, obs.length < 5 →
    process_stress_from_dataframe obs = CycleResult.insufficient 0

/-- Counterexample to C3: `cexObs` has only 2 raw observations, but they
span 30 seconds, so resampling produces 31 defined samples, all four
RMSSD windows qualify, 31 valid RMSSD values exist, and the cycle returns
a classification record rather than the insufficient-data outcome. -/
theorem sparse_claim_counterexample : ¬ sparseClaim := by
  intro hclaim
  have h2 := hclaim cexObs (by norm_num [cexObs])
  have hrm : resampleMean cexObs =
      (List.range 31).map
        (fun k => if k = 0 ∨ k = 30 then some (60 : ℚ) else none) := by
    rw [show cexObs = (⟨0, 60⟩ : Obs) :: [⟨30, 60⟩] from rfl,
      resampleMean_cons _ _ ⟨30, 60⟩ (by decide)]
    apply List.map_congr_left
    intro k hk
    simp only [List.mem_range] at hk
    by_cases h0 : k = 0
    · subst h0
      norm_num [List.filter]
    · by_cases h30 : k = 30
      · subst h30
        norm_num [List.filter]
      · have h0s : ¬(0 = k) := fun h => h0 h.symm
        have h30s : ¬(30 = k) := fun h => h30 h.symm
        simp [List.filter, h0, h30, h0s, h30s]
  have hffill : ffill (resampleMean cexObs) =
      List.replicate 31 (some (60 : ℚ)) := by
    rw [hrm,
      show (List.range 31).map
          (fun k => if k = 0 ∨ k = 30 then some (60 : ℚ) else none) =
        some 60 :: (List.replicate 29 none ++ [some 60]) from by decide]
    decide
  have hrr : rrSeries cexObs = List.replicate 31 (some (1000 : ℚ)) := by
    simp only [rrSeries]
    rw [interpolateLinear_of_allSome (by
        rw [hffill]
        intro x hx
        rw [List.eq_of_mem_replicate hx]
        rfl),
      hffill, List.map_replicate,
      show Option.map (fun h : ℚ => 60000 / h) (some 60) = some 1000 from by
        norm_num]
    rw [remove_outliers_and_interpolate, maskOutliers_of_inRange (by
      intro x hx
      rw [List.eq_of_mem_replicate hx]
      exact ⟨1000, rfl, by norm_num, by norm_num⟩)]
    exact interpolateLinear_of_allSome (by
      intro x hx
      rw [List.eq_of_mem_replicate hx]
      rfl)
  have e0 : stepValue (List.replicate 31 (some (1000 : ℚ))) 15 5 0 =
      some (calculate_rmssd
        (window (List.replicate 31 (some (1000 : ℚ))) (0 * 5) 15)) := by
    unfold stepValue
    rw [if_pos (by decide)]
  have e1 : stepValue (List.replicate 31 (some (1000 : ℚ))) 15 5 1 =
      some (calculate_rmssd
        (window (List.replicate 31 (some (1000 : ℚ))) (1 * 5) 15)) := by
    unfold stepValue
    rw [if_pos (by decide)]
  have e2 : stepValue (List.replicate 31 (some (1000 : ℚ))) 15 5 2 =
      some (calculate_rmssd
        (window (List.replicate 31 (some (1000 : ℚ))) (2 * 5) 15)) := by
    unfold stepValue
    rw [if_pos (by decide)]
  have e3 : stepValue (List.replicate 31 (some (1000 : ℚ))) 15 5 3 =
      some (calculate_rmssd
        (window (List.replicate 31 (some (1000 : ℚ))) (3 * 5) 15)) := by
    unfold stepValue
    rw [if_pos (by decide)]
  have hqv : qualifyingVals (List.replicate 31 (some (1000 : ℚ))) 15 5 =
      [calculate_rmssd (window (List.replicate 31 (some (1000 : ℚ))) (0 * 5) 15),
       calculate_rmssd (window (List.replicate 31 (some (1000 : ℚ))) (1 * 5) 15),
       calculate_rmssd (window (List.replicate 31 (some (1000 : ℚ))) (2 * 5) 15),
       calculate_rmssd (window (List.replicate 31 (some (1000 : ℚ))) (3 * 5) 15)]
      := by
    unfold qualifyingVals
    rw [show numSteps (List.replicate 31 (some (1000 : ℚ))).length 15 5 = 4
        from by decide,
      show List.range 4 = [0, 1, 2, 3] from by decide]
    simp only [List.filterMap_cons, e0, e1, e2, e3, List.filterMap_nil]
  have hbne : rmssdBlocks (List.replicate 31 (some (1000 : ℚ))) 15 5 ≠ [] := by
    intro hcon
    have hlb := length_rmssdBlocks (List.replicate 31 (some (1000 : ℚ))) 15 5
    rw [hcon, hqv] at hlb
    simp at hlb
  have hvsome : ∀ x ∈ rmssdSeries cexObs, (id x).isSome := by
    intro x hx
    unfold rmssdSeries at hx
    rw [hrr] at hx
    exact compute_rmssd_series_isSome _ 15 5 hbne x hx
  have hvallen : (validRmssd cexObs).length = 31 := by
    unfold validRmssd
    rw [List.filterMap_length_eq_length.mpr hvsome]
    unfold rmssdSeries
    rw [length_compute_rmssd_series, hrr]
    rfl
  simp only [process_stress_from_dataframe] at h2
  rw [if_neg (by rw [hvallen]; norm_num)] at h2
  exact CycleResult.noConfusion h2

end StressDetector
